import Mathlib

/-!
Verification of `filesize.py` (`DirectorySizeCalculator`).

The Python source is shallowly embedded as follows.

* Machine integers: file sizes (`st_size`) are nonnegative integers, modelled
  as `ℕ`.  Python floats (the running `compressed_size` and the compression
  ratios `0.5, 0.7, 0.9, 0.8`) are modelled as exact rationals `ℚ`; the
  claims under study concern magnitudes, not floating-point rounding.
* The filesystem is a passive snapshot (`FS`): the result of `rglob('*')`,
  of `glob('*')`, and the status of the root path.  A `stat()` call that
  would raise (file vanished, permission denied) is modelled by the entry's
  `statOk` flag being `false`.
* `get_size` with `num_threads = 1` runs its single worker sequentially;
  this deterministic execution is embedded as `seqRun` / `get_size`.
  The thread pool for general `num_threads` is embedded as a small-step
  interleaving system (`PoolState`, `stepWorker`, `runSched`) in which the
  unsynchronized read-modify-write sequences `compressed_size += ...` and
  `size += ...` of the worker body are split into their constituent shared
  reads and writes, as CPython permits a thread switch between them.
* I/O that cannot affect the returned value (the `tqdm` progress bar, the
  printed report, timing) is omitted.
-/

/-- Lowercasing as in Python `str.lower()`, written on the character list so
that it evaluates by kernel reduction. -/
def pyLower (s : String) : String := String.mk (s.data.map Char.toLower)

/-- Index of the last `'.'` in a character list, as Python `str.rfind('.')`
(`none` plays the role of `-1`). -/
def lastDotIdx : List Char → Option ℕ
  | [] => none
  | c :: cs =>
    match lastDotIdx cs with
    | some i => some (i + 1)
    | none => if c = '.' then some 0 else none

/-- The `Path.suffix` of a file name, as computed by `pathlib`:
`i = name.rfind('.')`; the suffix is `name[i:]` when `0 < i < len(name) - 1`
and `''` otherwise (so a dotfile such as `.secret` has an empty suffix). -/
def pySuffix (name : String) : String :=
  match lastDotIdx name.data with
  | some i => if 0 < i ∧ i < name.data.length - 1 then String.mk (name.data.drop i) else ""
  | none => ""

/-- The `file_.suffix.lower()` idiom used throughout the source. -/
def pySuffixLower (name : String) : String := pyLower (pySuffix name)

/-- Python `name.startswith('.')`: the first character is a dot. -/
def startsWithDot (name : String) : Bool :=
  match name.data with
  | [] => false
  | c :: _ => c = '.'

/-- Snapshot of one filesystem object as the scan sees it: the full path
string, the final component `name`, the `st_size` a successful `stat()`
returns, whether `stat()` succeeds (`statOk = false` models the call
raising), and whether `is_file()` holds. -/
structure FileEntry where
  path : String
  name : String
  size : ℕ
  statOk : Bool
  isFile : Bool
deriving DecidableEq

/-- Snapshot of the host filesystem around the scan root: whether the root
is a directory, whether it is an existing regular file, the entry for the
root itself, the results of `self.path.rglob('*')` (files and directories
alike), and the results of `self.path.glob('*')`. -/
structure FS where
  rootIsDir : Bool
  rootIsFile : Bool
  rootEntry : FileEntry
  rglobEntries : List FileEntry
  topEntries : List FileEntry
deriving DecidableEq

/-- The `Unit` enum of the source (`BYTE`, `KILOBYTE`, `MEGABYTE`,
`GIGABYTE`), renamed to avoid the Lean core `Unit`. -/
inductive SizeUnit where
  | byte
  | kilobyte
  | megabyte
  | gigabyte
deriving DecidableEq

/-- State of a `DirectorySizeCalculator` instance: exactly the attributes
`__init__` assigns.  The `cache` dict is an association list looked up by
its first matching key. -/
structure DirectorySizeCalculator where
  path : String
  file_types : List String
  exclude : List String
  cache : List (String × ℕ)
  include_hidden_files : Bool
  sort_by : Option String
deriving DecidableEq

/-- Embeds `DirectorySizeCalculator.__init__` (lines 17-34).  The `max_size`
argument is accepted but, exactly as in the source, never stored: no
attribute of the instance depends on it. -/
def DirectorySizeCalculator.init (path : String) (file_types : Option (List String))
    (exclude : Option (List String)) (max_size : Option ℕ)
    (include_hidden_files : Bool) (sort_by : Option String) : DirectorySizeCalculator :=
  { path := path
    file_types := file_types.getD []
    exclude := exclude.getD []
    cache := []
    include_hidden_files := include_hidden_files
    sort_by := sort_by }

/-- Embeds `_get_compression_ratio` (lines 64-76): the static table
`{'.txt': 0.5, '.csv': 0.7, '.jpg': 0.9, '.pdf': 0.8}` with default `1.0`. -/
def compressionFactor (file_ext : String) : ℚ :=
  if file_ext = ".txt" then 1 / 2
  else if file_ext = ".csv" then 7 / 10
  else if file_ext = ".jpg" then 9 / 10
  else if file_ext = ".pdf" then 4 / 5
  else 1

/-- The contribution `file_size * compression_ratio` a worker computes for
one entry (lines 151-154). -/
def adjSize (f : FileEntry) : ℚ := (f.size : ℚ) * compressionFactor (pySuffixLower f.name)

/-- Embeds `_get_files` (lines 36-62).  For a directory root it keeps every
`rglob('*')` result that passes the hidden-name, `file_types` and `exclude`
tests; for a root that is an existing regular file it returns that single
path (with no hidden-name test); otherwise it returns the empty list — the
source raises nothing for a missing root.  `sort_by = 'size'` sorts by the
stat size snapshot and `sort_by = 'name'` sorts by path, both stable. -/
def DirectorySizeCalculator._get_files (c : DirectorySizeCalculator) (fs : FS) :
    List FileEntry :=
  let files :=
    if fs.rootIsDir then
      fs.rglobEntries.filter (fun f =>
        (c.include_hidden_files || !startsWithDot f.name)
        && (c.file_types.isEmpty || c.file_types.contains (pySuffixLower f.name))
        && (c.exclude.isEmpty || !(c.exclude.contains (pySuffixLower f.name))))
    else if fs.rootIsFile then [fs.rootEntry]
    else []
  if c.sort_by = some "size" then files.mergeSort (fun a b => a.size ≤ b.size)
  else if c.sort_by = some "name" then files.mergeSort (fun a b => a.path ≤ b.path)
  else files

/-- Embeds `_format_size` (lines 189-207): divide by the power of 1024 the
requested unit names. -/
def _format_size (size : ℚ) (unit : SizeUnit) : ℚ :=
  match unit with
  | SizeUnit.byte => size
  | SizeUnit.kilobyte => size / 1024
  | SizeUnit.megabyte => size / (1024 * 1024)
  | SizeUnit.gigabyte => size / (1024 * 1024 * 1024)

/-- The guard `max_size and compressed_size > max_size` of line 155:
`None` and `0` are falsy, so the cap is inactive there; otherwise the test
is a strict comparison. -/
def capHit (max_size : Option ℚ) (compressed : ℚ) : Bool :=
  match max_size with
  | none => false
  | some m => if m = 0 then false else decide (m < compressed)

/-- Sequential execution of the worker loop (lines 144-159) by a single
worker: pop the next entry; a failing `stat()` raises out of the `try`
block that only wraps `get_nowait()`, killing the worker, so the run ends
with the totals as they stand; otherwise add `file_size * ratio` to the
compressed total, then test the cap (the compressed total already includes
the entry), and only after passing the test add `file_size` to the raw
total.  Returns `(size, compressed_size)`. -/
def seqRun (max_size : Option ℚ) : List FileEntry → ℕ → ℚ → ℕ × ℚ
  | [], size, compressed => (size, compressed)
  | f :: rest, size, compressed =>
    if !f.statOk then (size, compressed)
    else
      let compressed1 := compressed + adjSize f
      if capHit max_size compressed1 then (size, compressed1)
      else seqRun max_size rest (size + f.size) compressed1

/-- The work queue `get_size` builds (lines 124-137): with `top_level_only`
the `glob('*')` results that are regular files and pass the `file_types`
and `exclude` tests — note no hidden-name test on this path — and otherwise
the `_get_files` list. -/
def queueFor (c : DirectorySizeCalculator) (fs : FS) (top_level_only : Bool) :
    List FileEntry :=
  if top_level_only then
    fs.topEntries.filter (fun f =>
      f.isFile
      && (c.file_types.isEmpty || c.file_types.contains (pySuffixLower f.name))
      && (c.exclude.isEmpty || !(c.exclude.contains (pySuffixLower f.name))))
  else DirectorySizeCalculator._get_files c fs

/-- Embeds `get_size` (lines 102-187) for `num_threads = 1`, whose single
worker runs `seqRun` to completion; the pool for general `num_threads` is
the step system below.  On a cache hit the stored raw size is formatted and
returned at once (line 120).  Otherwise the queue is consumed, the raw
total is stored in the cache under `str(self.path)` (line 180), and the
formatted COMPRESSED total is returned (line 187).  The progress bar and
the printed report are advisory output and are omitted.  Returns the
updated instance (its cache grew) together with the returned number. -/
def DirectorySizeCalculator.get_size (c : DirectorySizeCalculator) (fs : FS)
    (unit : SizeUnit) (max_size : Option ℚ) (top_level_only : Bool) :
    DirectorySizeCalculator × ℚ :=
  match c.cache.lookup c.path with
  | some size => (c, _format_size (size : ℚ) unit)
  | none =>
    let r := seqRun max_size (queueFor c fs top_level_only) 0 0
    ({ c with cache := (c.path, r.1) :: c.cache }, _format_size r.2 unit)

/-- Program counter of one worker thread in the interleaving model of the
worker body (lines 144-159).  The shared accumulations
`compressed_size += file_size * compression_ratio` and `size += file_size`
are each split into their shared read (recording the value read in the
status) and the subsequent shared write. -/
inductive WStatus where
  | idle
  | readComp (f : FileEntry)
  | writeComp (f : FileEntry) (tmp : ℚ)
  | check (f : FileEntry)
  | readSz (f : FileEntry)
  | writeSz (f : FileEntry) (tmp : ℕ)
  | done
  | dead
deriving DecidableEq

/-- Shared state of one `get_size` invocation under the thread pool: the
work queue, the two running totals, and each worker's program counter. -/
structure PoolState where
  queue : List FileEntry
  size : ℕ
  compressed : ℚ
  workers : List WStatus
deriving DecidableEq

/-- Pool state at lines 161-165: the full queue, zeroed totals, and
`num_threads` idle workers. -/
def initPool (queue : List FileEntry) (num_threads : ℕ) : PoolState :=
  { queue := queue
    size := 0
    compressed := 0
    workers := List.replicate num_threads WStatus.idle }

/-- One atomic step of worker `i`: pop (`get_nowait` is thread safe; an
empty queue ends the worker, a failing `stat()` kills it), the read and the
write of `compressed_size += ...`, the cap test of line 155 on the current
shared value (a breach makes the worker return), the read and the write of
`size += ...`.  Workers that are `done` or `dead` do nothing. -/
def stepWorker (max_size : Option ℚ) (s : PoolState) (i : ℕ) : PoolState :=
  match s.workers[i]? with
  | none => s
  | some st =>
    match st with
    | WStatus.idle =>
      match s.queue with
      | [] => { s with workers := s.workers.set i WStatus.done }
      | f :: rest =>
        if !f.statOk then { s with queue := rest, workers := s.workers.set i WStatus.dead }
        else { s with queue := rest, workers := s.workers.set i (WStatus.readComp f) }
    | WStatus.readComp f =>
      { s with workers := s.workers.set i (WStatus.writeComp f s.compressed) }
    | WStatus.writeComp f tmp =>
      { s with compressed := tmp + adjSize f, workers := s.workers.set i (WStatus.check f) }
    | WStatus.check f =>
      if capHit max_size s.compressed then { s with workers := s.workers.set i WStatus.done }
      else { s with workers := s.workers.set i (WStatus.readSz f) }
    | WStatus.readSz f =>
      { s with workers := s.workers.set i (WStatus.writeSz f s.size) }
    | WStatus.writeSz f tmp =>
      { s with size := tmp + f.size, workers := s.workers.set i WStatus.idle }
    | WStatus.done => s
    | WStatus.dead => s

/-- Run the pool under an explicit interleaving: the schedule lists which
worker takes each successive atomic step. -/
def runSched (max_size : Option ℚ) (s : PoolState) : List ℕ → PoolState
  | [] => s
  | i :: sched => runSched max_size (stepWorker max_size s i) sched

/-! ## General lemmas about the compression table and the sequential run -/

lemma compressionFactor_nonneg (file_ext : String) : 0 ≤ compressionFactor file_ext := by
  unfold compressionFactor
  split_ifs <;> norm_num

lemma compressionFactor_le_one (file_ext : String) : compressionFactor file_ext ≤ 1 := by
  unfold compressionFactor
  split_ifs <;> norm_num

lemma adjSize_nonneg (f : FileEntry) : 0 ≤ adjSize f :=
  mul_nonneg (Nat.cast_nonneg _) (compressionFactor_nonneg _)

lemma adjSize_le_size (f : FileEntry) : adjSize f ≤ (f.size : ℚ) := by
  have h := mul_le_mul_of_nonneg_left (compressionFactor_le_one (pySuffixLower f.name))
    (Nat.cast_nonneg (α := ℚ) f.size)
  simpa [adjSize] using h

lemma seqRun_compressed_le (ms : Option ℚ) (es : List FileEntry) :
    ∀ (sz : ℕ) (cp : ℚ), cp ≤ (seqRun ms es sz cp).2 := by
  induction es with
  | nil => intro sz cp; simp [seqRun]
  | cons f rest ih =>
    intro sz cp
    by_cases hok : f.statOk = true
    · by_cases hb : capHit ms (cp + adjSize f) = true
      · simp only [seqRun, hok, Bool.not_true, Bool.false_eq_true, if_false, hb, if_true]
        linarith [adjSize_nonneg f]
      · simp only [seqRun, hok, Bool.not_true, Bool.false_eq_true, if_false, hb, if_true]
        calc cp ≤ cp + adjSize f := by linarith [adjSize_nonneg f]
          _ ≤ _ := ih (sz + f.size) (cp + adjSize f)
    · have hok2 : f.statOk = false := by
        revert hok
        cases f.statOk <;> simp
      simp [seqRun, hok2]

lemma seqRun_none_raw (es : List FileEntry) (h : ∀ f ∈ es, f.statOk = true) :
    ∀ (sz : ℕ) (cp : ℚ), (seqRun none es sz cp).1 = sz + (es.map FileEntry.size).sum := by
  induction es with
  | nil => intro sz cp; simp [seqRun]
  | cons f rest ih =>
    intro sz cp
    have hok : f.statOk = true := h f (by simp)
    have hcap : capHit none (cp + adjSize f) = false := rfl
    simp only [seqRun, hok, Bool.not_true, Bool.false_eq_true, if_false, hcap, if_true,
      List.map_cons, List.sum_cons]
    rw [ih (fun g hg => h g (by simp [hg])) (sz + f.size) (cp + adjSize f)]
    ring

lemma seqRun_none_adj_le (es : List FileEntry) :
    ∀ (sz : ℕ) (cp : ℚ), cp ≤ (sz : ℚ) →
      (seqRun none es sz cp).2 ≤ ((seqRun none es sz cp).1 : ℚ) := by
  induction es with
  | nil => intro sz cp h; simpa [seqRun] using h
  | cons f rest ih =>
    intro sz cp h
    by_cases hok : f.statOk = true
    · have hcap : capHit none (cp + adjSize f) = false := rfl
      simp only [seqRun, hok, Bool.not_true, Bool.false_eq_true, if_false, hcap, if_true]
      refine ih (sz + f.size) (cp + adjSize f) ?_
      have := adjSize_le_size f
      push_cast
      linarith
    · have hok2 : f.statOk = false := by
        revert hok
        cases f.statOk <;> simp
      simpa [seqRun, hok2] using h

lemma seqRun_none_adj_eq (es : List FileEntry)
    (h : ∀ f ∈ es, compressionFactor (pySuffixLower f.name) = 1) :
    ∀ (sz : ℕ) (cp : ℚ), cp = (sz : ℚ) →
      (seqRun none es sz cp).2 = ((seqRun none es sz cp).1 : ℚ) := by
  induction es with
  | nil => intro sz cp hc; simpa [seqRun] using hc
  | cons f rest ih =>
    intro sz cp hc
    by_cases hok : f.statOk = true
    · have hcap : capHit none (cp + adjSize f) = false := rfl
      simp only [seqRun, hok, Bool.not_true, Bool.false_eq_true, if_false, hcap, if_true]
      refine ih (fun g hg => h g (by simp [hg])) (sz + f.size) (cp + adjSize f) ?_
      have hf : adjSize f = (f.size : ℚ) := by
        rw [adjSize, h f (by simp), mul_one]
      push_cast
      rw [hf, hc]
    · have hok2 : f.statOk = false := by
        revert hok
        cases f.statOk <;> simp
      simpa [seqRun, hok2] using hc

lemma seqRun_cap_mono (c1 c2 : ℚ) (h0 : 0 < c2) (h12 : c2 ≤ c1) (es : List FileEntry) :
    ∀ (sz : ℕ) (cp : ℚ),
      (seqRun (some c2) es sz cp).2 ≤ (seqRun (some c1) es sz cp).2 := by
  induction es with
  | nil => intro sz cp; simp [seqRun]
  | cons f rest ih =>
    intro sz cp
    by_cases hok : f.statOk = true
    · have h2ne : ¬(c2 = 0) := ne_of_gt h0
      have h1ne : ¬(c1 = 0) := ne_of_gt (lt_of_lt_of_le h0 h12)
      by_cases hb1 : c1 < cp + adjSize f
      · have hb2 : c2 < cp + adjSize f := lt_of_le_of_lt h12 hb1
        simp [seqRun, hok, capHit, h2ne, h1ne, hb1, hb2]
      · by_cases hb2 : c2 < cp + adjSize f
        · have hle := seqRun_compressed_le (some c1) rest (sz + f.size) (cp + adjSize f)
          simp only [seqRun, hok, Bool.not_true, Bool.false_eq_true, if_false, capHit,
            h2ne, h1ne, if_neg, hb1, hb2, decide_eq_true_eq]
          simpa [hb2, hb1] using hle
        · simp only [seqRun, hok, Bool.not_true, Bool.false_eq_true, if_false, capHit,
            h2ne, h1ne, if_neg, hb1, hb2, decide_eq_true_eq]
          simpa [hb2, hb1] using ih (sz + f.size) (cp + adjSize f)
    · have hok2 : f.statOk = false := by
        revert hok
        cases f.statOk <;> simp
      simp [seqRun, hok2]

lemma _format_size_mono (unit : SizeUnit) {a b : ℚ} (h : a ≤ b) :
    _format_size a unit ≤ _format_size b unit := by
  cases unit <;> simp only [_format_size] <;>
    [skip; exact (div_le_div_iff_of_pos_right (by norm_num)).mpr h;
     exact (div_le_div_iff_of_pos_right (by norm_num)).mpr h;
     exact (div_le_div_iff_of_pos_right (by norm_num)).mpr h]
  exact h

lemma getElem?_set_self_of_lt {α : Type} (l : List α) (i : ℕ) (a : α) (h : i < l.length) :
    (l.set i a)[i]? = some a := by
  simp [List.getElem?_set, h]

/-! ## Sample filesystem snapshots used in concrete runs -/

def eTxtA : FileEntry := { path := "p/a.txt", name := "a.txt", size := 1000, statOk := true, isFile := true }

def eTxtB : FileEntry := { path := "p/b.txt", name := "b.txt", size := 1000, statOk := true, isFile := true }

def eTxtC : FileEntry := { path := "p/c.txt", name := "c.txt", size := 1000, statOk := true, isFile := true }

def eJpgA : FileEntry := { path := "p/a.jpg", name := "a.jpg", size := 1000, statOk := true, isFile := true }

def ePlainA : FileEntry := { path := "p/a", name := "a", size := 1000, statOk := true, isFile := true }

def ePlainB : FileEntry := { path := "p/b", name := "b", size := 1000, statOk := true, isFile := true }

def ePlainC : FileEntry := { path := "p/c", name := "c", size := 700, statOk := true, isFile := true }

def eBad : FileEntry := { path := "p/bad", name := "bad", size := 50, statOk := false, isFile := true }

def eTail : FileEntry := { path := "p/t", name := "t", size := 200, statOk := true, isFile := true }

def eHidden : FileEntry := { path := "p/.secret", name := ".secret", size := 100, statOk := true, isFile := true }

/-- A calculator constructed with all defaults, rooted at `"p"`. -/
def cfg0 : DirectorySizeCalculator :=
  DirectorySizeCalculator.init "p" none none none false none

def fsTxt1 : FS := { rootIsDir := true, rootIsFile := false, rootEntry := eTxtA, rglobEntries := [eTxtA], topEntries := [eTxtA] }

def fsTxt3 : FS := { rootIsDir := true, rootIsFile := false, rootEntry := eTxtA, rglobEntries := [eTxtA, eTxtB, eTxtC], topEntries := [] }

def fsHidden : FS := { rootIsDir := true, rootIsFile := false, rootEntry := eHidden, rglobEntries := [eHidden], topEntries := [eHidden] }

def fsNone : FS := { rootIsDir := false, rootIsFile := false, rootEntry := eTxtA, rglobEntries := [], topEntries := [] }

lemma sfx_txtA : pySuffixLower "a.txt" = ".txt" := by decide

lemma sfx_txtB : pySuffixLower "b.txt" = ".txt" := by decide

lemma sfx_txtC : pySuffixLower "c.txt" = ".txt" := by decide

lemma sfx_jpgA : pySuffixLower "a.jpg" = ".jpg" := by decide

lemma sfx_a : pySuffixLower "a" = "" := by decide

lemma sfx_b : pySuffixLower "b" = "" := by decide

lemma sfx_c : pySuffixLower "c" = "" := by decide

lemma sfx_bad : pySuffixLower "bad" = "" := by decide

lemma sfx_t : pySuffixLower "t" = "" := by decide

lemma sfx_secret : pySuffixLower ".secret" = "" := by decide

lemma cf_txt : compressionFactor ".txt" = 1 / 2 := by simp [compressionFactor]

lemma cf_jpg : compressionFactor ".jpg" = 9 / 10 := by simp [compressionFactor]

lemma cf_empty : compressionFactor "" = 1 := by simp [compressionFactor]

lemma adjL_txtA :
    adjSize { path := "p/a.txt", name := "a.txt", size := 1000, statOk := true, isFile := true } = 500 := by
  simp [adjSize, sfx_txtA, cf_txt]
  norm_num

lemma adjL_c :
    adjSize { path := "p/c", name := "c", size := 700, statOk := true, isFile := true } = 700 := by
  simp [adjSize, sfx_c, cf_empty]

/-! ## Claims -/

/-- C1 (counterexample): the raw total is NOT independent of the worker
count.  With two workers on two plain 1000-byte files and no cap, the
schedule that interleaves the two workers' read and write of
`size += file_size` (legal in CPython, where `+=` on a shared variable is
not atomic) loses one update and ends with a raw total of 1000, while the
single-worker sequential run of the same queue returns the full sum 2000. -/
theorem raw_total_depends_on_schedule_cex :
    (runSched none (initPool [ePlainA, ePlainB] 2)
      [0, 1, 0, 1, 0, 1, 0, 1, 0, 1, 0, 1, 0, 1]).size = 1000
    ∧ (seqRun none [ePlainA, ePlainB] 0 0).1 = 2000 := by
  constructor
  · simp [runSched, stepWorker, initPool, adjSize, capHit, ePlainA, ePlainB,
      sfx_a, sfx_b, compressionFactor, List.replicate]
  · simp [seqRun, adjSize, capHit, ePlainA, ePlainB, sfx_a, sfx_b, compressionFactor]

/-- C1 (amended): with a single worker (`num_threads = 1`) and no cap, the
raw total produced by the worker loop equals the arithmetic sum of the
sizes of all queued entries, provided every `stat()` succeeds. -/
theorem single_worker_raw_total_is_sum (es : List FileEntry)
    (h : ∀ f ∈ es, f.statOk = true) :
    (seqRun none es 0 0).1 = (es.map FileEntry.size).sum := by
  have hg := seqRun_none_raw es h 0 0
  simpa using hg

theorem single_worker_raw_total_is_sum_w :
    (seqRun none [ePlainA, ePlainB] 0 0).1 = ([ePlainA, ePlainB].map FileEntry.size).sum :=
  single_worker_raw_total_is_sum [ePlainA, ePlainB] (by decide)

/-- C2 (counterexample): the entry that triggers the cap breach IS counted
in the adjusted total.  One 1000-byte `.jpg` file under cap 500: the worker
first adds `1000 * 0.9 = 900` to `compressed_size`, only then tests the
cap and stops, so the run ends with raw total 0 but adjusted total 900 —
the excess entry contributed its full adjusted size. -/
theorem breach_entry_in_adjusted_total_cex :
    seqRun (some 500) [eJpgA] 0 0 = (0, 900) := by
  simp [seqRun, adjSize, capHit, eJpgA, sfx_jpgA, compressionFactor]
  norm_num

/-- C2 (amended): when the projected adjusted total exceeds an active cap,
the worker stops before adding the entry's raw size to the raw total and
before touching any later entry, but the breaching entry's adjusted size
has already been added to the adjusted total, which is returned including
it. -/
theorem breach_keeps_raw_adds_adjusted (ms : ℚ) (f : FileEntry) (rest : List FileEntry)
    (sz : ℕ) (cp : ℚ) (hok : f.statOk = true)
    (hbr : capHit (some ms) (cp + adjSize f) = true) :
    seqRun (some ms) (f :: rest) sz cp = (sz, cp + adjSize f) := by
  simp [seqRun, hok, hbr]

theorem breach_keeps_raw_adds_adjusted_w :
    seqRun (some 500) [eJpgA, eTail] 0 0 = (0, 0 + adjSize eJpgA) :=
  breach_keeps_raw_adds_adjusted 500 eJpgA [eTail] 0 0 rfl
    (by simp [capHit, adjSize, eJpgA, sfx_jpgA, cf_jpg]; norm_num)

/-- C3 (counterexample): two identical `get_size` calls on the same
instance return different values.  On one 1000-byte `.txt` file the first
call returns the adjusted total 500 (line 187) but stores the raw total
1000 in the cache (line 180); the second call hits the cache (line 120)
and returns 1000. -/
theorem second_call_differs_cex :
    (cfg0.get_size fsTxt1 SizeUnit.byte none false).2 = 500
    ∧ ((cfg0.get_size fsTxt1 SizeUnit.byte none false).1.get_size fsTxt1 SizeUnit.byte none false).2 = 1000 := by
  constructor
  · simp [DirectorySizeCalculator.get_size, cfg0, DirectorySizeCalculator.init, queueFor,
      DirectorySizeCalculator._get_files, fsTxt1, eTxtA, startsWithDot,
      seqRun, adjSize, capHit, sfx_txtA, compressionFactor, _format_size, List.lookup]
    norm_num
  · simp [DirectorySizeCalculator.get_size, cfg0, DirectorySizeCalculator.init, queueFor,
      DirectorySizeCalculator._get_files, fsTxt1, eTxtA, startsWithDot,
      seqRun, adjSize, capHit, sfx_txtA, compressionFactor, _format_size, List.lookup]

/-- C3 (amended): on a cache miss the first call stores the raw total
under the scan root, and any second call on the returned instance is a
cache hit that returns that stored RAW total (formatted), not the adjusted
total the first call returned; the two calls agree only when the adjusted
and raw totals coincide. -/
theorem second_call_returns_cached_raw (c : DirectorySizeCalculator) (fs : FS)
    (u1 u2 : SizeUnit) (m1 m2 : Option ℚ) (t1 t2 : Bool)
    (h : c.cache.lookup c.path = none) :
    ((c.get_size fs u1 m1 t1).1.get_size fs u2 m2 t2).2
      = _format_size ((seqRun m1 (queueFor c fs t1) 0 0).1 : ℚ) u2 := by
  simp [DirectorySizeCalculator.get_size, h, List.lookup]

theorem second_call_returns_cached_raw_w :
    ((cfg0.get_size fsTxt1 SizeUnit.byte none false).1.get_size fsTxt1 SizeUnit.byte none false).2
      = _format_size ((seqRun none (queueFor cfg0 fsTxt1 false) 0 0).1 : ℚ) SizeUnit.byte :=
  second_call_returns_cached_raw cfg0 fsTxt1 SizeUnit.byte SizeUnit.byte none none false false rfl

/-- C4 (counterexample): with a cap the adjusted total can EXCEED the raw
total.  One 1000-byte `.jpg` file under cap 500 ends with raw total 0 and
adjusted total 900, because the breaching entry's adjusted size is added
before the cap test while its raw size is never added. -/
theorem adjusted_exceeds_raw_on_breach_cex :
    (seqRun (some 500) [eJpgA] 0 0).1 = 0
    ∧ (seqRun (some 500) [eJpgA] 0 0).2 = 900
    ∧ ((seqRun (some 500) [eJpgA] 0 0).1 : ℚ) < (seqRun (some 500) [eJpgA] 0 0).2 := by
  refine ⟨?_, ?_, ?_⟩ <;>
    simp [seqRun, adjSize, capHit, eJpgA, sfx_jpgA, compressionFactor] <;> norm_num

/-- C4 (amended): with NO cap the adjusted total never exceeds the raw
total (every table ratio is at most 1), and the two totals are equal
whenever no queued entry's extension has a ratio below 1; the inequality
can fail only through a cap breach. -/
theorem no_cap_adjusted_le_raw (es : List FileEntry) :
    (seqRun none es 0 0).2 ≤ ((seqRun none es 0 0).1 : ℚ)
    ∧ ((∀ f ∈ es, compressionFactor (pySuffixLower f.name) = 1) →
        (seqRun none es 0 0).2 = ((seqRun none es 0 0).1 : ℚ)) := by
  constructor
  · exact seqRun_none_adj_le es 0 0 (by norm_num)
  · intro h
    exact seqRun_none_adj_eq es h 0 0 (by norm_num)

theorem no_cap_adjusted_le_raw_w :
    (seqRun none [eTxtA] 0 0).2 ≤ ((seqRun none [eTxtA] 0 0).1 : ℚ)
    ∧ ((∀ f ∈ [eTxtA], compressionFactor (pySuffixLower f.name) = 1) →
        (seqRun none [eTxtA] 0 0).2 = ((seqRun none [eTxtA] 0 0).1 : ℚ)) :=
  no_cap_adjusted_le_raw [eTxtA]

/-- C5 (counterexample): there is no stop flag, so a cap breach does NOT
prevent other workers from pulling further entries.  Cap 400, two workers:
worker 0 processes the 1000-byte `.txt` file (adjusted 500), observes
`500 > 400` at its cap test and finishes; the shared adjusted total is
over the cap and one entry is still queued.  Worker 1 nevertheless pops
and processes it, pushing the adjusted total to 1200. -/
theorem pop_after_breach_cex :
    (runSched (some 400) (initPool [eTxtA, ePlainC] 2) [0, 0, 0, 0]).workers[0]? = some WStatus.done
    ∧ (runSched (some 400) (initPool [eTxtA, ePlainC] 2) [0, 0, 0, 0]).queue = [ePlainC]
    ∧ capHit (some 400) (runSched (some 400) (initPool [eTxtA, ePlainC] 2) [0, 0, 0, 0]).compressed = true
    ∧ (runSched (some 400) (initPool [eTxtA, ePlainC] 2) [0, 0, 0, 0, 1]).queue = []
    ∧ (runSched (some 400) (initPool [eTxtA, ePlainC] 2) [0, 0, 0, 0, 1, 1, 1, 1]).compressed = 1200 := by
  refine ⟨?_, ?_, ?_, ?_, ?_⟩ <;>
    simp [runSched, stepWorker, initPool, capHit, eTxtA, ePlainC,
      adjL_txtA, adjL_c, List.replicate] <;> norm_num [adjL_c]

/-- C5 (amended): the only cooperative stopping that exists is each
worker's own cap test: a worker whose program counter is at the test while
the shared adjusted total is over an active cap becomes done at its next
step, changing neither the queue nor either total — it stops itself only,
and sends no signal to the other workers. -/
theorem over_cap_check_stops_worker (ms : Option ℚ) (s : PoolState) (i : ℕ) (f : FileEntry)
    (hw : s.workers[i]? = some (WStatus.check f))
    (hc : capHit ms s.compressed = true) :
    (stepWorker ms s i).workers[i]? = some WStatus.done
    ∧ (stepWorker ms s i).size = s.size
    ∧ (stepWorker ms s i).queue = s.queue
    ∧ (stepWorker ms s i).compressed = s.compressed := by
  have hlt : i < s.workers.length := by
    by_contra hge
    rw [List.getElem?_eq_none (Nat.le_of_not_lt hge)] at hw
    exact Option.noConfusion hw
  refine ⟨?_, ?_, ?_, ?_⟩ <;> simp [stepWorker, hw, hc, getElem?_set_self_of_lt _ _ _ hlt]

theorem over_cap_check_stops_worker_w :
    (stepWorker (some 400) { queue := [ePlainC], size := 0, compressed := 500, workers := [WStatus.check eTxtA, WStatus.idle] } 0).workers[0]? = some WStatus.done
    ∧ (stepWorker (some 400) { queue := [ePlainC], size := 0, compressed := 500, workers := [WStatus.check eTxtA, WStatus.idle] } 0).size = ({ queue := [ePlainC], size := 0, compressed := 500, workers := [WStatus.check eTxtA, WStatus.idle] } : PoolState).size
    ∧ (stepWorker (some 400) { queue := [ePlainC], size := 0, compressed := 500, workers := [WStatus.check eTxtA, WStatus.idle] } 0).queue = ({ queue := [ePlainC], size := 0, compressed := 500, workers := [WStatus.check eTxtA, WStatus.idle] } : PoolState).queue
    ∧ (stepWorker (some 400) { queue := [ePlainC], size := 0, compressed := 500, workers := [WStatus.check eTxtA, WStatus.idle] } 0).compressed = ({ queue := [ePlainC], size := 0, compressed := 500, workers := [WStatus.check eTxtA, WStatus.idle] } : PoolState).compressed :=
  over_cap_check_stops_worker (some 400)
    { queue := [ePlainC], size := 0, compressed := 500, workers := [WStatus.check eTxtA, WStatus.idle] }
    0 eTxtA rfl (by norm_num [capHit])

/-- C6 (counterexample): a failing `stat()` is NOT caught per entry — the
`try` block only wraps `get_nowait()`, so the exception propagates and
kills the worker thread.  On the queue `[a (1000 B, ok), bad (stat fails),
t (200 B, ok)]` the single worker accumulates 1000, then dies on `bad`:
the run ends at `(1000, 1000)` instead of continuing with `t` (which would
have given raw total 1200). -/
theorem stat_failure_skips_rest_cex :
    seqRun none [ePlainA, eBad, eTail] 0 0 = (1000, 1000)
    ∧ (seqRun none [ePlainA, eBad, eTail] 0 0).1 ≠ 1200 := by
  constructor
  · simp [seqRun, adjSize, capHit, ePlainA, eBad, eTail, sfx_a, sfx_bad, sfx_t,
      compressionFactor]
  · simp [seqRun, adjSize, capHit, ePlainA, eBad, eTail, sfx_a, sfx_bad, sfx_t,
      compressionFactor]

/-- C6 (amended): an exception from `stat()` propagates out of the worker
body and terminates that worker: the failing entry contributes nothing,
every entry that worker would have processed afterwards is also skipped,
and the totals keep the value accumulated before the failure. -/
theorem stat_failure_ends_worker (ms : Option ℚ) (f : FileEntry) (rest : List FileEntry)
    (sz : ℕ) (cp : ℚ) (h : f.statOk = false) :
    seqRun ms (f :: rest) sz cp = (sz, cp) := by
  simp [seqRun, h]

theorem stat_failure_ends_worker_w :
    seqRun none [eBad, eTail] 7 3 = (7, 3) :=
  stat_failure_ends_worker none eBad [eTail] 7 3 rfl

/-- C7 (counterexample): a nonexistent root does NOT fail with a NotFound
condition.  `_get_files` falls through both the `is_dir` and the `is_file`
branches and returns the empty list, and `get_size` then runs its workers
over an empty queue and returns 0 — success with an empty/zero result,
indistinguishable from an existing root that matches nothing. -/
theorem missing_root_returns_zero_cex :
    DirectorySizeCalculator._get_files cfg0 fsNone = []
    ∧ (cfg0.get_size fsNone SizeUnit.byte none false).2 = 0 := by
  constructor
  · simp [DirectorySizeCalculator._get_files, cfg0, DirectorySizeCalculator.init, fsNone]
  · simp [DirectorySizeCalculator.get_size, cfg0, DirectorySizeCalculator.init, queueFor,
      DirectorySizeCalculator._get_files, fsNone, seqRun, _format_size, List.lookup]

/-- C7 (amended): for every configuration whose cache does not yet hold the
root, a root path that is neither a directory nor an existing file yields
the empty candidate list and a returned size of 0, with no error of any
kind — the code has no NotFound path. -/
theorem missing_root_empty_and_zero (c : DirectorySizeCalculator) (fs : FS)
    (u : SizeUnit) (ms : Option ℚ) (t : Bool)
    (h1 : fs.rootIsDir = false) (h2 : fs.rootIsFile = false) (h3 : fs.topEntries = [])
    (h4 : c.cache.lookup c.path = none) :
    DirectorySizeCalculator._get_files c fs = []
    ∧ (c.get_size fs u ms t).2 = 0 := by
  have hg : DirectorySizeCalculator._get_files c fs = [] := by
    simp [DirectorySizeCalculator._get_files, h1, h2]
  refine ⟨hg, ?_⟩
  have hq : queueFor c fs t = [] := by
    cases t <;> simp [queueFor, hg, h3]
  simp only [DirectorySizeCalculator.get_size, h4, hq, seqRun]
  cases u <;> simp [_format_size]

theorem missing_root_empty_and_zero_w :
    DirectorySizeCalculator._get_files cfg0 fsNone = []
    ∧ (cfg0.get_size fsNone SizeUnit.kilobyte none true).2 = 0 :=
  missing_root_empty_and_zero cfg0 fsNone SizeUnit.kilobyte none true rfl rfl rfl rfl

/-- C8 (counterexample): the claimed monotonicity fails at cap 0, because
`max_size and ...` treats 0 as falsy and disables the cap entirely.  Three
1000-byte `.txt` files: cap 600 stops after the second entry with adjusted
total 1000, while the SMALLER cap 0 runs uncapped to adjusted total 1500 —
decreasing the cap from 600 to 0 increased the result. -/
theorem zero_cap_not_monotone_cex :
    (cfg0.get_size fsTxt3 SizeUnit.byte (some 600) false).2 = 1000
    ∧ (cfg0.get_size fsTxt3 SizeUnit.byte (some 0) false).2 = 1500
    ∧ (cfg0.get_size fsTxt3 SizeUnit.byte (some 600) false).2
        < (cfg0.get_size fsTxt3 SizeUnit.byte (some 0) false).2 := by
  refine ⟨?_, ?_, ?_⟩ <;>
    simp [DirectorySizeCalculator.get_size, cfg0, DirectorySizeCalculator.init, queueFor,
      DirectorySizeCalculator._get_files, fsTxt3, eTxtA, eTxtB, eTxtC, startsWithDot,
      seqRun, adjSize, capHit, sfx_txtA, sfx_txtB, sfx_txtC, compressionFactor,
      _format_size, List.lookup] <;>
    norm_num

/-- C8 (amended): restricted to POSITIVE caps the claim holds — for a fixed
configuration and snapshot, if `0 < c2 ≤ c1` then the value `get_size`
returns under cap `c2` is at most the value it returns under cap `c1`
(cap 0 is excluded: Python truthiness makes it mean "no cap"). -/
theorem get_size_cap_monotone (c : DirectorySizeCalculator) (fs : FS) (u : SizeUnit)
    (t : Bool) (c1 c2 : ℚ) (h0 : 0 < c2) (h12 : c2 ≤ c1) :
    (c.get_size fs u (some c2) t).2 ≤ (c.get_size fs u (some c1) t).2 := by
  unfold DirectorySizeCalculator.get_size
  cases hl : c.cache.lookup c.path with
  | some v => simp
  | none =>
    simp only []
    exact _format_size_mono u (seqRun_cap_mono c1 c2 h0 h12 (queueFor c fs t) 0 0)

theorem get_size_cap_monotone_w :
    (cfg0.get_size fsTxt3 SizeUnit.byte (some 600) false).2
      ≤ (cfg0.get_size fsTxt3 SizeUnit.byte (some 700) false).2 :=
  get_size_cap_monotone cfg0 fsTxt3 SizeUnit.byte false 700 600 (by norm_num) (by norm_num)

/-- C9 (counterexample): the hidden-file filter is NOT applied in
`top_level_only` mode.  With `include_hidden_files = False`, a top-level
dotfile `.secret` of 100 bytes passes the `top_level_only` queue-building
loop (lines 125-133, which tests only `is_file`, `file_types` and
`exclude`) and contributes its full size: `get_size` returns 100, not 0. -/
theorem hidden_file_counted_top_level_cex :
    cfg0.include_hidden_files = false
    ∧ startsWithDot eHidden.name = true
    ∧ (cfg0.get_size fsHidden SizeUnit.byte none true).2 = 100 := by
  refine ⟨rfl, rfl, ?_⟩
  simp [DirectorySizeCalculator.get_size, cfg0, DirectorySizeCalculator.init, queueFor,
    fsHidden, eHidden, seqRun, adjSize, capHit, sfx_secret, compressionFactor,
    _format_size, List.lookup]

/-- C9 (amended): the exclusion of dot-prefixed names does hold on the
recursive path — when the root is a directory and `include_hidden_files`
is false, no file in the `_get_files` candidate list has a name starting
with a dot.  (The `top_level_only` queue and the root-is-file branch apply
no such test.) -/
theorem _get_files_excludes_hidden (c : DirectorySizeCalculator) (fs : FS) (f : FileEntry)
    (hd : fs.rootIsDir = true) (hh : c.include_hidden_files = false)
    (hf : f ∈ DirectorySizeCalculator._get_files c fs) :
    startsWithDot f.name = false := by
  have hmem : f ∈ fs.rglobEntries.filter (fun g =>
      (c.include_hidden_files || !startsWithDot g.name)
      && (c.file_types.isEmpty || c.file_types.contains (pySuffixLower g.name))
      && (c.exclude.isEmpty || !(c.exclude.contains (pySuffixLower g.name)))) := by
    unfold DirectorySizeCalculator._get_files at hf
    rw [hd] at hf
    simp only [if_true] at hf
    by_cases hs : c.sort_by = some "size"
    · rw [if_pos hs] at hf
      exact List.mem_mergeSort.mp hf
    · rw [if_neg hs] at hf
      by_cases hn : c.sort_by = some "name"
      · rw [if_pos hn] at hf
        exact List.mem_mergeSort.mp hf
      · rw [if_neg hn] at hf
        exact hf
  have hp := (List.mem_filter.mp hmem).2
  simp only [hh, Bool.false_or, Bool.and_eq_true, Bool.not_eq_true'] at hp
  exact hp.1.1

theorem _get_files_excludes_hidden_w :
    startsWithDot eTxtA.name = false :=
  _get_files_excludes_hidden cfg0 fsTxt1 eTxtA rfl rfl (by decide)

/-- C10 (confirmed): the `max_size` argument of the constructor is dead —
`__init__` never stores it, so two instances built with different
`max_size` values and otherwise identical arguments are equal as states,
and therefore every operation on them behaves identically. -/
theorem init_ignores_max_size (path : String) (file_types : Option (List String))
    (exclude : Option (List String)) (include_hidden_files : Bool)
    (sort_by : Option String) (m1 m2 : Option ℕ) :
    DirectorySizeCalculator.init path file_types exclude m1 include_hidden_files sort_by
      = DirectorySizeCalculator.init path file_types exclude m2 include_hidden_files sort_by := rfl
